import Mathlib

/-
Verification development for the fraud-detection transaction-scoring service
(FastAPI + Kafka + PostgreSQL, sources: prediction.py, main.py, db.py).

The embedding models:
  * the feature normalizer and ensemble invocation of
    prediction.process_transaction,
  * the synchronous decision aggregation of main.predict_transaction,
  * the decision store of db.store_transaction / db.get_transaction,
  * the lookup decision rule of main.get_transaction_result,
  * the storage-failure handling of db.store_transaction and the
    streaming loop main.consume_transactions.

Probabilities and monetary values are modelled as rationals; a missing
numeric value (pandas NaN) is modelled as Option.none.
-/

namespace FraudDetection

/-- A JSON field value of an incoming transaction record.  A string value
carries, besides its text, its numeric reading: `parsed = some q` stands for
a string that pandas/numpy parse as the number `q` (a numeric string), and
`parsed = none` stands for a string no numeric coercion accepts. -/
inductive Value where
  | num (q : ℚ)
  | strv (s : String) (parsed : Option ℚ)
  deriving DecidableEq, Repr

/-- A transaction record: an ordered association of field names to values,
as built by pd.DataFrame from the incoming JSON object. -/
abbrev Row := List (String × Value)

/-- Text rendering of a value, as the SQL `->>` operator yields for a JSON
field (db.get_transaction filters on transaction_json->>.transaction_id). -/
def jsonText : Value → String
  | Value.num q => toString q
  | Value.strv s _ => s

/-- Numeric coercion of a cell: pd.to_numeric with errors set to coerce
(prediction.py line 120) maps a non-numeric string to NaN (`none`) instead of
raising; numpy float conversion of the v-columns behaves the same way. -/
def coerceNumeric : Value → Option ℚ
  | Value.num q => some q
  | Value.strv _ parsed => parsed

/-- Lower-casing of one ASCII character, as the Python str.lower method acts on the
ASCII field names of a transaction. -/
def asciiLowerChar (c : Char) : Char :=
  if c.toNat ≥ 65 ∧ c.toNat ≤ 90 then Char.ofNat (c.toNat + 32) else c

/-- Lower-casing of a field name. -/
def asciiLower (s : String) : String :=
  String.mk (s.data.map asciiLowerChar)

/-- Lower-casing of all column names (prediction.py line 98). -/
def lowerCols (r : Row) : Row :=
  r.map (fun p => (asciiLower p.1, p.2))

/-- Column-presence test on a record. -/
def hasCol (r : Row) (c : String) : Bool :=
  r.any (fun p => p.1 == c)

/-- First value stored under a column name, as DataFrame column access. -/
def getCol (r : Row) (c : String) : Option Value :=
  (r.find? (fun p => p.1 == c)).map Prod.snd

/-- Default substitution: when the column is absent, a zero column is added
(prediction.py lines 103-113 for amount and time). -/
def setDefaultZero (r : Row) (c : String) : Row :=
  if hasCol r c then r else r ++ [(c, Value.num 0)]

/-- Median of the single-row sample the scaler is fitted on: the value
itself (RobustScaler.fit on a one-row frame). -/
def singleRowMedian (x : ℚ) : ℚ := x

/-- Interquartile range of the single-row sample: the 75th and 25th
percentiles of one observation are both that observation. -/
def singleRowIQR (x : ℚ) : ℚ := x - x

/-- Replacement of an exactly-zero scale by one, as the sklearn helper
_handle_zeros_in_scale does before dividing. -/
def handleZerosInScale (s : ℚ) : ℚ :=
  if s = 0 then 1 else s

/-- Value produced by RobustScaler.fit_transform on the one-row frame
holding x (prediction.py lines 123-124 refit the module-level scalers on
every call, on the single input row). -/
def robustScaleSingle (x : ℚ) : ℚ :=
  (x - singleRowMedian x) / handleZerosInScale (singleRowIQR x)

/-- Column order asserted by the normalizer (prediction.py line 130):
scaled_amount, scaled_time, then v1..v28. -/
def expectedColumns : List String :=
  ["scaled_amount", "scaled_time"] ++ (List.range 28).map (fun i => "v" ++ toString (i + 1))

/-- Errors a scoring call can raise.  `missingColumn` is the KeyError of the
reindexing step (the SchemaError of the spec for an absent v-column);
`invalidNumeric` is the sklearn rejection of a non-finite input value (the
SchemaError of the spec for a non-coercible amount); `modelFailure` wraps an
exception raised by one of the five models (the InferenceError of the spec). -/
inductive PipelineError where
  | missingColumn (c : String)
  | invalidNumeric
  | modelFailure (msg : String)
  deriving DecidableEq, Repr

/-- A dataframe cell after numeric conversion: `none` is NaN. -/
abbrev Cell := Option ℚ

/-- The dataframe after lower-casing, default substitution, amount coercion,
scaling, and dropping of the raw amount/time columns (prediction.py lines
98-127): the remaining original columns in order, then the two scaled ones. -/
def buildFrame (t : Row) : List (String × Cell) :=
  let d := setDefaultZero (setDefaultZero (lowerCols t) "amount") "time"
  let amountVal := (getCol d "amount").getD (Value.num 0)
  let timeVal := (getCol d "time").getD (Value.num 0)
  let scaledAmount := (coerceNumeric amountVal).map robustScaleSingle
  let scaledTime := (coerceNumeric timeVal).map robustScaleSingle
  (d.filter (fun p => !(p.1 == "amount" || p.1 == "time"))).map
      (fun p => (p.1, coerceNumeric p.2))
    ++ [("scaled_amount", scaledAmount), ("scaled_time", scaledTime)]

/-- Reindexing a frame on a list of expected columns; an absent column is a
KeyError (prediction.py line 131). -/
def reindex (frame : List (String × Cell)) : List String → Except PipelineError (List Cell)
  | [] => Except.ok []
  | c :: cs =>
    match frame.find? (fun p => p.1 == c) with
    | none => Except.error (PipelineError.missingColumn c)
    | some p => (reindex frame cs).map (fun rest => p.2 :: rest)

/-- Normalization: the feature row handed to the models, in the asserted
30-column order. -/
def buildFeatures (t : Row) : Except PipelineError (List Cell) :=
  reindex (buildFrame t) expectedColumns

/-- Input validation performed by the sklearn check_array validation on every model call:
a NaN entry raises, a fully numeric row passes through. -/
def checkArray : List Cell → Except PipelineError (List ℚ)
  | [] => Except.ok []
  | none :: _ => Except.error PipelineError.invalidNumeric
  | some q :: rest => (checkArray rest).map (fun l => q :: l)

/-- The five loaded models, each a possibly-failing function of the feature
row.  logistic, kneighbors and tree expose predict_proba (a pair, index 0 the
non-fraud class, index 1 the fraud class); svc exposes decision_function (a
margin); keras predicts a two-output row (index 0 non-fraud, index 1 fraud). -/
structure Models where
  logistic : List ℚ → Except String (ℚ × ℚ)
  kneighbors : List ℚ → Except String (ℚ × ℚ)
  svcDecision : List ℚ → Except String ℚ
  tree : List ℚ → Except String (ℚ × ℚ)
  keras : List ℚ → Except String (ℚ × ℚ)

/-- Shape of one entry of the predictions dictionary: a two-element list
[non_fraud, fraud] or a dict with keys non_fraud and fraud. -/
inductive ModelOut where
  | plist (nonFraud fraud : ℚ)
  | pdict (nonFraud fraud : ℚ)
  deriving DecidableEq, Repr

/-- The predictions dictionary returned by process_transaction. -/
abbrev PredDict := List (String × ModelOut)

/-- Embedding of prediction.process_transaction: normalization, input
validation, the five model invocations in source order (any failure aborts
the whole call), then the predictions dictionary.  `sigmoid` stands for the
map x to 1/(1+exp(-x)) applied to the svc margin (prediction.py line 143);
its numeric values are irrelevant to the claims, so it is a parameter. -/
def processTransaction (sigmoid : ℚ → ℚ) (m : Models) (t : Row) :
    Except PipelineError PredDict :=
  match buildFeatures t with
  | Except.error e => Except.error e
  | Except.ok cells =>
    match checkArray cells with
    | Except.error e => Except.error e
    | Except.ok arr =>
      match m.logistic arr, m.kneighbors arr, m.svcDecision arr,
            m.tree arr, m.keras arr with
      | Except.ok lg, Except.ok kn, Except.ok sd, Except.ok tr, Except.ok kr =>
        Except.ok [("logistic", ModelOut.plist lg.1 lg.2),
                   ("kneighbors", ModelOut.plist kn.1 kn.2),
                   ("svc", ModelOut.pdict (1 - sigmoid sd) (sigmoid sd)),
                   ("tree", ModelOut.plist tr.1 tr.2),
                   ("keras", ModelOut.pdict kr.1 kr.2)]
      | Except.error e, _, _, _, _ => Except.error (PipelineError.modelFailure e)
      | _, Except.error e, _, _, _ => Except.error (PipelineError.modelFailure e)
      | _, _, Except.error e, _, _ => Except.error (PipelineError.modelFailure e)
      | _, _, _, Except.error e, _ => Except.error (PipelineError.modelFailure e)
      | _, _, _, _, Except.error e => Except.error (PipelineError.modelFailure e)

/-- Name of the i-th anonymized feature column, i counted from zero. -/
def vName (i : ℕ) : String := "v" ++ toString (i + 1)

/-- The 28 anonymized feature fields of a transaction. -/
def vFields (vs : Fin 28 → ℚ) : Row :=
  List.ofFn (fun i : Fin 28 => (vName i.1, Value.num (vs i)))

/-- A transaction record holding amount, time, and all of v1..v28. -/
def mkTransaction (amount timeVal : Value) (vs : Fin 28 → ℚ) : Row :=
  ("amount", amount) :: ("time", timeVal) :: vFields vs

/-- A transaction record with amount and time absent. -/
def mkTransactionNoAmountTime (vs : Fin 28 → ℚ) : Row :=
  vFields vs

/-- A transaction record from which the j-th v-field is missing. -/
def mkTransactionMissing (amount timeVal : Value) (vs : Fin 28 → ℚ) (j : Fin 28) : Row :=
  ("amount", amount) :: ("time", timeVal) ::
    (vFields vs).filter (fun p => p.1 != vName j.1)

/-- Cells of the 28 v-columns after numeric conversion. -/
def vCells (vs : Fin 28 → ℚ) : List (String × Cell) :=
  List.ofFn (fun i : Fin 28 => (vName i.1, some (vs i)))

/-- Numeric indexing of a predictions entry, as the Python expressions e[0], e[1]: defined
on the list shape, a KeyError (`none`) on the dict shape. -/
def indexPair : ModelOut → Option (ℚ × ℚ)
  | ModelOut.plist nf f => some (nf, f)
  | ModelOut.pdict _ _ => none

/-- String indexing of a predictions entry by the keys non_fraud and fraud,
as Python string indexing on a dict: a TypeError (`none`) on the list shape. -/
def dictPair : ModelOut → Option (ℚ × ℚ)
  | ModelOut.pdict nf f => some (nf, f)
  | ModelOut.plist _ _ => none

/-- Fraud-class probability of one entry, per the isinstance dispatch of
main.predict_transaction line 196: key fraud on a dict, index 1 on a list. -/
def fraudClassOf : ModelOut → ℚ
  | ModelOut.pdict _ f => f
  | ModelOut.plist _ f => f

/-- Dictionary access predictions[name]. -/
def getModel (p : PredDict) (name : String) : Option ModelOut :=
  (p.find? (fun e => e.1 == name)).map Prod.snd

/-- The list fraud_probs of main.predict_transaction lines 193-198: the
fraud-class probabilities of logistic, kneighbors, svc and tree; keras is
not consulted.  A missing key or a mis-shaped entry is a raised KeyError. -/
def fraudProbsOf (p : PredDict) : Option (List ℚ) :=
  match getModel p "logistic", getModel p "kneighbors",
        getModel p "svc", getModel p "tree" with
  | some lg, some kn, some sv, some tr =>
    match indexPair lg, indexPair kn, indexPair tr with
    | some l, some k, some t => some [l.2, k.2, fraudClassOf sv, t.2]
    | _, _, _ => none
  | _, _, _, _ => none

/-- The fraud_probability of the synchronous decision: the arithmetic mean
sum(fraud_probs)/len(fraud_probs) (main.predict_transaction line 200). -/
def avgFraudProb (p : PredDict) : Option ℚ :=
  (fraudProbsOf p).map (fun probs => probs.sum / (probs.length : ℚ))

/-- The is_fraud of the synchronous decision: avg_fraud_prob greater than 0.5
(main.predict_transaction line 201). -/
def isFraudOf (p : PredDict) : Option Bool :=
  (avgFraudProb p).map (fun q => decide ((1 : ℚ) / 2 < q))

/-- A predictions dictionary of the shape process_transaction returns, from
the five probability pairs. -/
def mkPredDict (lnf lf knf kf snf sf tnf tf enf ef : ℚ) : PredDict :=
  [("logistic", ModelOut.plist lnf lf),
   ("kneighbors", ModelOut.plist knf kf),
   ("svc", ModelOut.pdict snf sf),
   ("tree", ModelOut.plist tnf tf),
   ("keras", ModelOut.pdict enf ef)]

/-- A row of the transactions table (db.init_transactions_table): the serial
key, the transaction JSON, and per model the fraud and non-fraud
probabilities, persisted in (fraud, non_fraud) column order. -/
structure DBRow where
  rid : ℕ
  tjson : Row
  logisticFraud : ℚ
  logisticNonFraud : ℚ
  kneighborsFraud : ℚ
  kneighborsNonFraud : ℚ
  svcFraud : ℚ
  svcNonFraud : ℚ
  treeFraud : ℚ
  treeNonFraud : ℚ
  kerasFraud : ℚ
  kerasNonFraud : ℚ
  deriving DecidableEq, Repr

/-- The transactions table: rows in insertion order. -/
abbrev DB := List DBRow

/-- Next value of the SERIAL surrogate key: strictly above every present
key. -/
def nextId (db : DB) : ℕ :=
  (db.map DBRow.rid).foldr max 0 + 1

/-- Construction of the inserted row from the predictions dictionary, with
the indexing of db.store_transaction lines 108-112: lists indexed [1]/[0],
svc and keras indexed by the keys fraud/non_fraud.  A mis-shaped or
incomplete dictionary is a raised KeyError (`none`). -/
def insertValues (tjson : Row) (p : PredDict) (rid : ℕ) : Option DBRow :=
  match getModel p "logistic", getModel p "kneighbors", getModel p "svc",
        getModel p "tree", getModel p "keras" with
  | some lg, some kn, some sv, some tr, some kr =>
    match indexPair lg, indexPair kn, dictPair sv, indexPair tr, dictPair kr with
    | some l, some k, some s, some t, some r =>
      some { rid := rid, tjson := tjson,
             logisticFraud := l.2, logisticNonFraud := l.1,
             kneighborsFraud := k.2, kneighborsNonFraud := k.1,
             svcFraud := s.2, svcNonFraud := s.1,
             treeFraud := t.2, treeNonFraud := t.1,
             kerasFraud := r.2, kerasNonFraud := r.1 }
    | _, _, _, _, _ => none
  | _, _, _, _, _ => none

/-- Embedding of the effect of db.store_transaction on the table: one INSERT of a
new row under a fresh serial key; an exception while building or executing
the insert is caught inside, the transaction rolled back, and the table left
unchanged. -/
def storeTransaction (db : DB) (tjson : Row) (p : PredDict) : DB :=
  match insertValues tjson p (nextId db) with
  | some row => db ++ [row]
  | none => db

/-- Text of the transaction_id field of a stored JSON payload, as the filter
transaction_json->>.transaction_id of db.get_transaction line 159. -/
def txIdOf (j : Row) : Option String :=
  (getCol j "transaction_id").map jsonText

/-- WHERE predicate of db.get_transaction: the embedded transaction identifier of the row equals the queried one. -/
def rowMatches (tid : String) (r : DBRow) : Bool :=
  txIdOf r.tjson == some tid

/-- One comparison step of the ORDER BY id DESC LIMIT 1 selection. -/
def latestStep (acc : Option DBRow) (r : DBRow) : Option DBRow :=
  match acc with
  | none => some r
  | some a => if a.rid ≤ r.rid then some r else some a

/-- ORDER BY id DESC LIMIT 1 over a list of rows: the row with the greatest
serial key. -/
def latestRow (l : List DBRow) : Option DBRow :=
  l.foldl latestStep none

/-- The dictionary db.get_transaction returns (lines 168-175): the stored
JSON and, per model, the probability pair reassembled in (non_fraud, fraud)
order, lists for logistic, kneighbors and tree, dicts for svc and keras. -/
structure TxResult where
  transaction_json : Row
  logistic : ModelOut
  kneighbors : ModelOut
  svc : ModelOut
  tree : ModelOut
  keras : ModelOut
  deriving DecidableEq, Repr

/-- Reassembly of a fetched row into the returned dictionary. -/
def rowToResult (r : DBRow) : TxResult :=
  { transaction_json := r.tjson,
    logistic := ModelOut.plist r.logisticNonFraud r.logisticFraud,
    kneighbors := ModelOut.plist r.kneighborsNonFraud r.kneighborsFraud,
    svc := ModelOut.pdict r.svcNonFraud r.svcFraud,
    tree := ModelOut.plist r.treeNonFraud r.treeFraud,
    keras := ModelOut.pdict r.kerasNonFraud r.kerasFraud }

/-- Embedding of db.get_transaction: the most recently inserted matching row,
reassembled; `none` when no row matches. -/
def getTransaction (db : DB) (tid : String) : Option TxResult :=
  (latestRow (db.filter (rowMatches tid))).map rowToResult

/-- Decision of main.get_transaction_result lines 298-307 on the kneighbors
entry: fraude when entry[0] is greater than entry[1], aprobada otherwise;
numeric indexing of a dict shape would raise (`none`). -/
def knDecision (kn : ModelOut) : Option String :=
  (indexPair kn).map (fun p => if p.1 > p.2 then "fraude" else "aprobada")

/-- Outcome of the lookup endpoint: HTTP 404, a status with the stored
details, or an uncaught handler exception. -/
inductive LookupOutcome where
  | notFound
  | ok (status : String) (details : TxResult)
  | serverFailure
  deriving DecidableEq, Repr

/-- Embedding of main.get_transaction_result: fetch by identifier, 404 when
absent, else the status decided from the stored kneighbors pair. -/
def getTransactionResult (db : DB) (tid : String) : LookupOutcome :=
  match getTransaction db tid with
  | none => LookupOutcome.notFound
  | some res =>
    match knDecision res.kneighbors with
    | some s => LookupOutcome.ok s res
    | none => LookupOutcome.serverFailure

/-- Where a storage attempt can fail: nowhere, while establishing the
database connection (db.store_transaction line 93, outside its try block),
or while executing or committing the insert (inside the try block). -/
inductive DbFailure where
  | ok
  | connectFailed
  | executeFailed
  deriving DecidableEq, Repr

/-- Embedding of db.store_transaction as called with a given failure mode: a
connection failure raises out of the function before its try block is
entered; an execute or commit failure is caught inside, the transaction
rolled back and logged, and the function returns normally with the table
unchanged. -/
def storeTransactionWith (f : DbFailure) (db : DB) (tjson : Row) (p : PredDict) :
    Except String DB :=
  match f with
  | DbFailure.connectFailed => Except.error "connection error"
  | DbFailure.executeFailed => Except.ok db
  | DbFailure.ok => Except.ok (storeTransaction db tjson p)

/-- Observable outcome of one iteration of the streaming loop for one
message whose predictions already computed successfully. -/
structure StepOutcome where
  db : DB
  published : Bool
  loopRaised : Bool
  deriving DecidableEq, Repr

/-- Embedding of the store-then-publish body of main.consume_transactions
lines 138-148: both calls sit in one try block, so an exception raised by
the store is caught by the handler of the loop (the loop survives) but the
publish of that message is skipped. -/
def consumeStep (f : DbFailure) (db : DB) (tjson : Row) (p : PredDict) :
    StepOutcome :=
  match storeTransactionWith f db tjson p with
  | Except.ok db2 => { db := db2, published := true, loopRaised := false }
  | Except.error _ => { db := db, published := false, loopRaised := false }

/-- The row inserted by store_transaction for a well-shaped predictions
dictionary with the given ten probabilities. -/
def mkRow (j : Row) (n : ℕ) (lnf lf knf kf snf sf tnf tf enf ef : ℚ) : DBRow :=
  { rid := n, tjson := j,
    logisticFraud := lf, logisticNonFraud := lnf,
    kneighborsFraud := kf, kneighborsNonFraud := knf,
    svcFraud := sf, svcNonFraud := snf,
    treeFraud := tf, treeNonFraud := tnf,
    kerasFraud := ef, kerasNonFraud := enf }

/-- Names of the entries of a predictions dictionary. -/
def predKeys (p : PredDict) : List String :=
  p.map Prod.fst

/-- Models whose five calls always succeed, built from pure prediction
functions; they stand for any run in which no model raises. -/
def pureModels (f g t k : List ℚ → ℚ × ℚ) (sd : List ℚ → ℚ) : Models :=
  { logistic := fun arr => Except.ok (f arr),
    kneighbors := fun arr => Except.ok (g arr),
    svcDecision := fun arr => Except.ok (sd arr),
    tree := fun arr => Except.ok (t arr),
    keras := fun arr => Except.ok (k arr) }

/-- Lower-casing the canonical record is the identity: its field names are
already lower case. -/
theorem lowerCols_mkTransaction (a t : Value) (vs : Fin 28 → ℚ) :
    lowerCols (mkTransaction a t vs) = mkTransaction a t vs := rfl

/-- The normalized frame of the canonical record: the 28 v-columns followed
by the two scaled columns. -/
theorem buildFrame_mkTransaction (a t : Value) (vs : Fin 28 → ℚ) :
    buildFrame (mkTransaction a t vs) =
      vCells vs ++ [("scaled_amount", (coerceNumeric a).map robustScaleSingle),
                    ("scaled_time", (coerceNumeric t).map robustScaleSingle)] := by
  simp only [buildFrame]
  rw [lowerCols_mkTransaction]
  rfl

/-- Normalizing a record with all 28 v-fields yields the 30 cells scaled
amount, scaled time, then v1..v28 in order. -/
theorem buildFeatures_mkTransaction (a t : Value) (vs : Fin 28 → ℚ) :
    buildFeatures (mkTransaction a t vs) =
      Except.ok ((coerceNumeric a).map robustScaleSingle ::
                 (coerceNumeric t).map robustScaleSingle ::
                 List.ofFn (fun i => some (vs i))) := by
  rw [buildFeatures, buildFrame_mkTransaction]
  rfl

/-- Storing a well-shaped predictions dictionary appends exactly the row
holding its ten probabilities in persisted column order. -/
theorem store_mkPredDict (db : DB) (j : Row) (lnf lf knf kf snf sf tnf tf enf ef : ℚ) :
    storeTransaction db j (mkPredDict lnf lf knf kf snf sf tnf tf enf ef) =
      db ++ [mkRow j (nextId db) lnf lf knf kf snf sf tnf tf enf ef] := rfl

/-- Every serial key present in the table is at most the running maximum. -/
theorem rid_le_fold (db : DB) (r : DBRow) (h : r ∈ db) :
    r.rid ≤ (db.map DBRow.rid).foldr max 0 := by
  induction db with
  | nil => exact absurd h (List.not_mem_nil r)
  | cons x xs ih =>
    rcases List.mem_cons.mp h with h1 | h2
    · subst h1
      exact le_max_left _ _
    · exact le_trans (ih h2) (le_max_right _ _)

/-- The next serial key is strictly above every present one. -/
theorem rid_lt_nextId (db : DB) (r : DBRow) (h : r ∈ db) : r.rid < nextId db :=
  Nat.lt_succ_of_le (rid_le_fold db r h)

/-- Folding the latest-row step either leaves the accumulator or lands on a
list element. -/
theorem foldl_latestStep_cases (l : List DBRow) :
    ∀ acc : Option DBRow,
      l.foldl latestStep acc = acc ∨ ∃ a ∈ l, l.foldl latestStep acc = some a := by
  induction l with
  | nil => exact fun acc => Or.inl rfl
  | cons x xs ih =>
    intro acc
    have hstep : (x :: xs).foldl latestStep acc = xs.foldl latestStep (latestStep acc x) := rfl
    rcases ih (latestStep acc x) with h | ⟨a, ha, h⟩
    · rw [hstep, h]
      cases acc with
      | none => exact Or.inr ⟨x, List.mem_cons_self x xs, rfl⟩
      | some b =>
        by_cases hb : b.rid ≤ x.rid
        · exact Or.inr ⟨x, List.mem_cons_self x xs, by simp [latestStep, hb]⟩
        · exact Or.inl (by simp [latestStep, hb])
    · exact Or.inr ⟨a, List.mem_cons_of_mem x ha, by rw [hstep, h]⟩

/-- Appending a row whose serial key dominates the list makes it the latest
row. -/
theorem latestRow_append_last (l : List DBRow) (r : DBRow)
    (h : ∀ x ∈ l, x.rid ≤ r.rid) : latestRow (l ++ [r]) = some r := by
  unfold latestRow
  rw [List.foldl_append]
  rcases foldl_latestStep_cases l none with h0 | ⟨a, ha, h0⟩
  · rw [h0]
    rfl
  · rw [h0]
    simp [latestStep, h a ha]

/-- Retrieval after storing a well-shaped, matching record returns exactly
the newly inserted row, regardless of what the table already holds. -/
theorem getTransaction_store (db : DB) (j : Row) (tid : String)
    (lnf lf knf kf snf sf tnf tf enf ef : ℚ) (htid : txIdOf j = some tid) :
    getTransaction (storeTransaction db j (mkPredDict lnf lf knf kf snf sf tnf tf enf ef)) tid
      = some (rowToResult (mkRow j (nextId db) lnf lf knf kf snf sf tnf tf enf ef)) := by
  rw [store_mkPredDict]
  unfold getTransaction
  rw [List.filter_append]
  have hmatch : rowMatches tid (mkRow j (nextId db) lnf lf knf kf snf sf tnf tf enf ef) = true := by
    simp [rowMatches, mkRow, htid]
  rw [show (List.filter (rowMatches tid) [mkRow j (nextId db) lnf lf knf kf snf sf tnf tf enf ef]) =
        [mkRow j (nextId db) lnf lf knf kf snf sf tnf tf enf ef] by simp [hmatch]]
  rw [latestRow_append_last]
  · rfl
  · intro x hx
    have hxdb : x ∈ db := List.mem_of_mem_filter hx
    exact le_of_lt (rid_lt_nextId db x hxdb)

/-- Lower-casing the v-only record is the identity. -/
theorem lowerCols_vFields (vs : Fin 28 → ℚ) : lowerCols (vFields vs) = vFields vs := rfl

/-- The normalized frame of a record missing amount and time: both are
substituted by zero before scaling. -/
theorem buildFrame_noAmountTime (vs : Fin 28 → ℚ) :
    buildFrame (mkTransactionNoAmountTime vs) =
      vCells vs ++ [("scaled_amount", some (robustScaleSingle 0)),
                    ("scaled_time", some (robustScaleSingle 0))] := by
  simp only [buildFrame, mkTransactionNoAmountTime]
  rw [lowerCols_vFields]
  rfl

/-- Normalizing a record missing amount and time succeeds, with both scaled
cells computed from the substituted zero. -/
theorem buildFeatures_noAmountTime (vs : Fin 28 → ℚ) :
    buildFeatures (mkTransactionNoAmountTime vs) =
      Except.ok (some (robustScaleSingle 0) :: some (robustScaleSingle 0) ::
        List.ofFn (fun i => some (vs i))) := by
  rw [buildFeatures, buildFrame_noAmountTime]
  rfl

/-- Lower-casing fixes every v-column name: they are already lower case. -/
theorem asciiLower_vName : ∀ i : Fin 28, asciiLower (vName i.1) = vName i.1 := by decide

/-- Lower-casing fixes the amount column name. -/
theorem asciiLower_amount : asciiLower "amount" = "amount" := rfl

/-- Lower-casing fixes the time column name. -/
theorem asciiLower_time : asciiLower "time" = "time" := rfl

/-- None of the fixed column names is a v-column name. -/
theorem fixedNames_ne_vName :
    ∀ j : Fin 28, "amount" ≠ vName j.1 ∧ "time" ≠ vName j.1 ∧
      "scaled_amount" ≠ vName j.1 ∧ "scaled_time" ≠ vName j.1 := by decide

/-- Every v-column name is among the expected columns. -/
theorem vName_mem_expected : ∀ j : Fin 28, vName j.1 ∈ expectedColumns := by decide

/-- Membership in a record after default substitution: an element was
already there or is the added zero column. -/
theorem mem_setDefaultZero (r : Row) (c : String) (p : String × Value)
    (h : p ∈ setDefaultZero r c) : p ∈ r ∨ p = (c, Value.num 0) := by
  unfold setDefaultZero at h
  split at h
  · exact Or.inl h
  · rcases List.mem_append.mp h with h1 | h2
    · exact Or.inl h1
    · exact Or.inr (by simpa using h2)

/-- Reindexing on a column list containing a column the frame lacks raises a
KeyError on some column. -/
theorem reindex_error_of_missing (frame : List (String × Cell)) (c : String)
    (h : frame.find? (fun p => p.1 == c) = none) :
    ∀ cols : List String, c ∈ cols →
      ∃ d, reindex frame cols = Except.error (PipelineError.missingColumn d) := by
  intro cols
  induction cols with
  | nil => exact fun hmem => absurd hmem (List.not_mem_nil c)
  | cons c0 cs ih =>
    intro hmem
    cases hf : frame.find? (fun p => p.1 == c0) with
    | none => exact ⟨c0, by simp [reindex, hf]⟩
    | some p =>
      have hne : c ≠ c0 := by
        intro he
        rw [← he, h] at hf
        cases hf
      have hcs : c ∈ cs := by
        rcases List.mem_cons.mp hmem with h1 | h2
        · exact absurd h1 hne
        · exact h2
      rcases ih hcs with ⟨d, hd⟩
      exact ⟨d, by simp [reindex, hf, hd, Except.map]⟩

/-- The frame of a record missing the j-th v-field has no column of that
name: its other names are the fixed ones or other v-names. -/
theorem frame_missing_col (a t : Value) (vs : Fin 28 → ℚ) (j : Fin 28) :
    (buildFrame (mkTransactionMissing a t vs j)).find?
      (fun p => p.1 == vName j.1) = none := by
  rw [List.find?_eq_none]
  intro p hp
  intro hcontra
  have hpname : p.1 = vName j.1 := by simpa using hcontra
  simp only [buildFrame] at hp
  rcases List.mem_append.mp hp with hp1 | hp2
  · rcases List.mem_map.mp hp1 with ⟨q, hq, hpq⟩
    have hq1 : p.1 = q.1 := by rw [← hpq]
    have hqd := List.mem_of_mem_filter hq
    rcases mem_setDefaultZero _ _ _ hqd with hq3 | hq4
    · rcases mem_setDefaultZero _ _ _ hq3 with hq5 | hq6
      · rcases List.mem_map.mp hq5 with ⟨u, hu, hqu⟩
        have hqname : q.1 = asciiLower u.1 := by rw [← hqu]
        rcases List.mem_cons.mp hu with hu1 | hu2
        · rw [hu1] at hqname
          rw [hq1, hqname, asciiLower_amount] at hpname
          exact (fixedNames_ne_vName j).1 hpname
        · rcases List.mem_cons.mp hu2 with hu3 | hu4
          · rw [hu3] at hqname
            rw [hq1, hqname, asciiLower_time] at hpname
            exact (fixedNames_ne_vName j).2.1 hpname
          · have hufil := (List.mem_filter.mp hu4).2
            rcases Set.mem_range.mp
              ((List.mem_ofFn _ _).mp (List.mem_filter.mp hu4).1) with ⟨i, hui⟩
            have huname : u.1 = vName i.1 := by rw [← hui]
            rw [hq1, hqname, huname, asciiLower_vName i, ← huname] at hpname
            rw [hpname] at hufil
            simp at hufil
      · rw [hq6] at hq1
        rw [hq1] at hpname
        exact (fixedNames_ne_vName j).1 hpname
    · rw [hq4] at hq1
      rw [hq1] at hpname
      exact (fixedNames_ne_vName j).2.1 hpname
  · rcases List.mem_cons.mp hp2 with h1 | h2
    · rw [h1] at hpname
      exact (fixedNames_ne_vName j).2.2.1 hpname
    · rcases List.mem_cons.mp h2 with h3 | h4
      · rw [h3] at hpname
        exact (fixedNames_ne_vName j).2.2.2 hpname
      · exact absurd h4 (List.not_mem_nil p)

/-- Input validation passes a fully numeric row through unchanged. -/
theorem checkArray_map_some : ∀ l : List ℚ, checkArray (l.map some) = Except.ok l := by
  intro l
  induction l with
  | nil => rfl
  | cons x xs ih => simp [checkArray, ih, Except.map]

/-- Scoring with never-failing models succeeds on any record whose
normalization yields a fully numeric feature row, and returns the five model
outputs in their documented shapes. -/
theorem processTransaction_pure_ok (sg : ℚ → ℚ) (f g t k : List ℚ → ℚ × ℚ)
    (sd : List ℚ → ℚ) (row : Row) (arr : List ℚ)
    (hb : buildFeatures row = Except.ok (arr.map some)) :
    processTransaction sg (pureModels f g t k sd) row =
      Except.ok [("logistic", ModelOut.plist (f arr).1 (f arr).2),
                 ("kneighbors", ModelOut.plist (g arr).1 (g arr).2),
                 ("svc", ModelOut.pdict (1 - sg (sd arr)) (sg (sd arr))),
                 ("tree", ModelOut.plist (t arr).1 (t arr).2),
                 ("keras", ModelOut.pdict (k arr).1 (k arr).2)] := by
  simp [processTransaction, hb, checkArray_map_some, pureModels]

/-- Normalizing the canonical record when both coercions succeed yields the
fully numeric feature row of the two scaled values and the v-values. -/
theorem features_map_some (a t : Value) (q1 q2 : ℚ) (vs : Fin 28 → ℚ)
    (h1 : coerceNumeric a = some q1) (h2 : coerceNumeric t = some q2) :
    buildFeatures (mkTransaction a t vs) =
      Except.ok ((robustScaleSingle q1 :: robustScaleSingle q2 ::
        List.ofFn vs).map some) := by
  rw [buildFeatures_mkTransaction, h1, h2]
  simp [List.map_ofFn, Function.comp]

/-- C1: evaluation of the lookup decision at the test vector of the spec.  With a
stored kneighbors pair of non-fraud 2/5 and fraud 3/5, the lookup endpoint
answers status aprobada: the code marks fraude exactly when the non-fraud
entry exceeds the fraud entry, the opposite of the stated rule, contradicting
both the claim and the inline comment of the branch itself. -/
theorem stored_knn_lookup_at_test_vector :
    ∃ details,
      getTransactionResult
          (storeTransaction [] [("transaction_id", Value.strv "t1" none)]
            (mkPredDict 0 0 (2/5) (3/5) 0 0 0 0 0 0)) "t1" =
        LookupOutcome.ok "aprobada" details := by
  refine ⟨rowToResult
    (mkRow [("transaction_id", Value.strv "t1" none)] (nextId []) 0 0 (2/5) (3/5) 0 0 0 0 0 0), ?_⟩
  have h1 := getTransaction_store [] [("transaction_id", Value.strv "t1" none)] "t1"
    0 0 (2/5) (3/5) 0 0 0 0 0 0 rfl
  unfold getTransactionResult
  rw [h1]
  norm_num [knDecision, rowToResult, mkRow, indexPair]

/-- C2: the normalizer refits the robust scaler on the single input row on
every call, so the scaled value is degenerately zero for every input, and
both scaled cells of every normalized transaction are zero. -/
theorem freshfit_scaler_degenerate :
    (∀ x : ℚ, robustScaleSingle x = 0) ∧
    (∀ (amt tm : ℚ) (vs : Fin 28 → ℚ),
      buildFeatures (mkTransaction (Value.num amt) (Value.num tm) vs) =
        Except.ok (some 0 :: some 0 :: List.ofFn (fun i => some (vs i)))) := by
  have hz : ∀ x : ℚ, robustScaleSingle x = 0 := by
    intro x
    simp [robustScaleSingle, singleRowMedian, singleRowIQR, handleZerosInScale]
  refine ⟨hz, fun amt tm vs => ?_⟩
  rw [buildFeatures_mkTransaction]
  simp [coerceNumeric, hz]

/-- C3: the synchronous decision averages the fraud-class probabilities of
exactly logistic, kneighbors, svc and tree (keras excluded), flags fraud
exactly when the mean exceeds one half (a tie resolves to non-fraud), and on
the probabilities 9/10, 8/10, 7/10, 6/10 yields mean 3/4 and a fraud
verdict. -/
theorem ensemble_mean_decision :
    (∀ lnf lf knf kf snf sf tnf tf enf ef : ℚ,
      avgFraudProb (mkPredDict lnf lf knf kf snf sf tnf tf enf ef) =
        some ((lf + kf + sf + tf) / 4) ∧
      (isFraudOf (mkPredDict lnf lf knf kf snf sf tnf tf enf ef) = some true ↔
        (1 : ℚ) / 2 < (lf + kf + sf + tf) / 4)) ∧
    avgFraudProb (mkPredDict (1/10) (9/10) (2/10) (8/10) (3/10) (7/10) (4/10) (6/10) 0 1) =
      some (3/4) ∧
    isFraudOf (mkPredDict (1/10) (9/10) (2/10) (8/10) (3/10) (7/10) (4/10) (6/10) 0 1) =
      some true ∧
    isFraudOf (mkPredDict (1/2) (1/2) (1/2) (1/2) (1/2) (1/2) (1/2) (1/2) (1/2) (1/2)) =
      some false := by
  have hmean : ∀ lnf lf knf kf snf sf tnf tf enf ef : ℚ,
      avgFraudProb (mkPredDict lnf lf knf kf snf sf tnf tf enf ef) =
        some ((lf + kf + sf + tf) / 4) := by
    intro lnf lf knf kf snf sf tnf tf enf ef
    simp [avgFraudProb, fraudProbsOf, getModel, mkPredDict, indexPair, fraudClassOf]
    ring_nf
  refine ⟨fun lnf lf knf kf snf sf tnf tf enf ef => ⟨hmean _ _ _ _ _ _ _ _ _ _, ?_⟩, ?_, ?_, ?_⟩
  · rw [isFraudOf, hmean]
    simp
  · exact hmean _ _ _ _ _ _ _ _ _ _ |>.trans (by norm_num)
  · rw [isFraudOf, hmean]
    norm_num
  · rw [isFraudOf, hmean]
    norm_num

/-- C4: normalizing a transaction holding all of v1..v28 yields exactly 30
cells in the fixed order scaled amount, scaled time, then v1..v28 ascending,
the raw amount and time columns having been dropped. -/
theorem normalize_feature_vector_shape :
    ∀ (amt tm : ℚ) (vs : Fin 28 → ℚ),
      buildFeatures (mkTransaction (Value.num amt) (Value.num tm) vs) =
        Except.ok (some (robustScaleSingle amt) :: some (robustScaleSingle tm) ::
          List.ofFn (fun i => some (vs i))) ∧
      (some (robustScaleSingle amt) :: some (robustScaleSingle tm) ::
        List.ofFn (fun i : Fin 28 => some (vs i))).length = 30 := by
  intro amt tm vs
  refine ⟨?_, by simp⟩
  rw [buildFeatures_mkTransaction]
  rfl

/-- C5: a transaction missing any one v-field fails normalization with a
missing-column error, uniformly in the loaded models: no model of the
ensemble is ever invoked on it. -/
theorem missing_v_fails_schema :
    ∀ (sg : ℚ → ℚ) (m : Models) (a t : Value) (vs : Fin 28 → ℚ) (j : Fin 28),
      ∃ c, processTransaction sg m (mkTransactionMissing a t vs j) =
        Except.error (PipelineError.missingColumn c) := by
  intro sg m a t vs j
  rcases reindex_error_of_missing (buildFrame (mkTransactionMissing a t vs j))
      (vName j.1) (frame_missing_col a t vs j) expectedColumns
      (vName_mem_expected j) with ⟨c, hc⟩
  exact ⟨c, by simp [processTransaction, buildFeatures, hc]⟩

/-- C6: the amount cell is coerced to a number; a numeric-string amount
normalizes exactly as the number it denotes and scores successfully under
any non-failing models; a non-coercible amount makes the scoring call fail,
for every model set; and a transaction missing amount and time still scores
successfully with both substituted by zero before scaling. -/
theorem amount_coercion_and_defaults :
    (∀ (s : String) (q tm : ℚ) (vs : Fin 28 → ℚ),
      buildFeatures (mkTransaction (Value.strv s (some q)) (Value.num tm) vs) =
        buildFeatures (mkTransaction (Value.num q) (Value.num tm) vs)) ∧
    (∀ (sg : ℚ → ℚ) (f g t k : List ℚ → ℚ × ℚ) (sd : List ℚ → ℚ)
        (s : String) (q tm : ℚ) (vs : Fin 28 → ℚ),
      ∃ d, processTransaction sg (pureModels f g t k sd)
            (mkTransaction (Value.strv s (some q)) (Value.num tm) vs) =
          Except.ok d) ∧
    (∀ (sg : ℚ → ℚ) (m : Models) (s : String) (tm : ℚ) (vs : Fin 28 → ℚ),
      processTransaction sg m (mkTransaction (Value.strv s none) (Value.num tm) vs) =
        Except.error PipelineError.invalidNumeric) ∧
    (∀ vs : Fin 28 → ℚ,
      buildFeatures (mkTransactionNoAmountTime vs) =
        Except.ok (some (robustScaleSingle 0) :: some (robustScaleSingle 0) ::
          List.ofFn (fun i => some (vs i)))) ∧
    (∀ (sg : ℚ → ℚ) (f g t k : List ℚ → ℚ × ℚ) (sd : List ℚ → ℚ)
        (vs : Fin 28 → ℚ),
      ∃ d, processTransaction sg (pureModels f g t k sd)
            (mkTransactionNoAmountTime vs) = Except.ok d) := by
  refine ⟨?_, ?_, ?_, ?_, ?_⟩
  · intro s q tm vs
    rw [buildFeatures_mkTransaction, buildFeatures_mkTransaction]
    rfl
  · intro sg f g t k sd s q tm vs
    exact ⟨_, processTransaction_pure_ok sg f g t k sd _
      (robustScaleSingle q :: robustScaleSingle tm :: List.ofFn vs)
      (features_map_some _ _ q tm vs rfl rfl)⟩
  · intro sg m s tm vs
    have hb := buildFeatures_mkTransaction (Value.strv s none) (Value.num tm) vs
    simp only [coerceNumeric, Option.map_none] at hb
    simp [processTransaction, hb, checkArray]
  · exact buildFeatures_noAmountTime
  · intro sg f g t k sd vs
    have hb : buildFeatures (mkTransactionNoAmountTime vs) =
        Except.ok ((robustScaleSingle 0 :: robustScaleSingle 0 ::
          List.ofFn vs).map some) := by
      rw [buildFeatures_noAmountTime]
      simp [List.map_ofFn, Function.comp]
    exact ⟨_, processTransaction_pure_ok sg f g t k sd _
      (robustScaleSingle 0 :: robustScaleSingle 0 :: List.ofFn vs) hb⟩

/-- C7: scoring is atomic: for every input it either raises or returns a
predictions dictionary carrying exactly the five model keys; a dictionary
with fewer entries is never returned. -/
theorem scoring_atomic :
    ∀ (sg : ℚ → ℚ) (m : Models) (t : Row),
      (∃ e, processTransaction sg m t = Except.error e) ∨
      (∃ d, processTransaction sg m t = Except.ok d ∧
        predKeys d = ["logistic", "kneighbors", "svc", "tree", "keras"]) := by
  intro sg m t
  cases hb : buildFeatures t with
  | error e => exact Or.inl ⟨e, by simp [processTransaction, hb]⟩
  | ok cells =>
    cases hc : checkArray cells with
    | error e => exact Or.inl ⟨e, by simp [processTransaction, hb, hc]⟩
    | ok arr =>
      cases hl : m.logistic arr with
      | error e =>
        exact Or.inl ⟨PipelineError.modelFailure e, by simp [processTransaction, hb, hc, hl]⟩
      | ok lg =>
        cases hk : m.kneighbors arr with
        | error e =>
          exact Or.inl ⟨PipelineError.modelFailure e,
            by simp [processTransaction, hb, hc, hl, hk]⟩
        | ok kn =>
          cases hs : m.svcDecision arr with
          | error e =>
            exact Or.inl ⟨PipelineError.modelFailure e,
              by simp [processTransaction, hb, hc, hl, hk, hs]⟩
          | ok sd =>
            cases ht : m.tree arr with
            | error e =>
              exact Or.inl ⟨PipelineError.modelFailure e,
                by simp [processTransaction, hb, hc, hl, hk, hs, ht]⟩
            | ok tr =>
              cases hr : m.keras arr with
              | error e =>
                exact Or.inl ⟨PipelineError.modelFailure e,
                  by simp [processTransaction, hb, hc, hl, hk, hs, ht, hr]⟩
              | ok kr =>
                exact Or.inr ⟨[("logistic", ModelOut.plist lg.1 lg.2),
                               ("kneighbors", ModelOut.plist kn.1 kn.2),
                               ("svc", ModelOut.pdict (1 - sg sd) (sg sd)),
                               ("tree", ModelOut.plist tr.1 tr.2),
                               ("keras", ModelOut.pdict kr.1 kr.2)],
                              by simp [processTransaction, hb, hc, hl, hk, hs, ht, hr], rfl⟩

/-- C8: append is a pure insert that never rewrites existing rows; latest
returns none when the embedded identifier of no row matches; and after two
appends for the same identifier the second, most recently inserted record is
returned. -/
theorem decision_store_append_latest :
    (∀ (db : DB) (j : Row) (p : PredDict), ∃ tail, storeTransaction db j p = db ++ tail) ∧
    (∀ (db : DB) (tid : String),
      (∀ r ∈ db, rowMatches tid r = false) → getTransaction db tid = none) ∧
    (∀ (db : DB) (j1 j2 : Row) (tid : String)
        (a1 b1 c1 d1 e1 f1 g1 h1 i1 k1 a2 b2 c2 d2 e2 f2 g2 h2 i2 k2 : ℚ),
      txIdOf j1 = some tid → txIdOf j2 = some tid →
      getTransaction
          (storeTransaction (storeTransaction db j1 (mkPredDict a1 b1 c1 d1 e1 f1 g1 h1 i1 k1))
            j2 (mkPredDict a2 b2 c2 d2 e2 f2 g2 h2 i2 k2)) tid =
        some (rowToResult
          (mkRow j2 (nextId (storeTransaction db j1 (mkPredDict a1 b1 c1 d1 e1 f1 g1 h1 i1 k1)))
            a2 b2 c2 d2 e2 f2 g2 h2 i2 k2))) := by
  refine ⟨?_, ?_, ?_⟩
  · intro db j p
    cases h : insertValues j p (nextId db) with
    | none => exact ⟨[], by simp [storeTransaction, h]⟩
    | some row => exact ⟨[row], by simp [storeTransaction, h]⟩
  · intro db tid h
    unfold getTransaction
    rw [show db.filter (rowMatches tid) = [] from List.filter_eq_nil_iff.mpr (by simpa using h)]
    rfl
  · intro db j1 j2 tid a1 b1 c1 d1 e1 f1 g1 h1 i1 k1 a2 b2 c2 d2 e2 f2 g2 h2 i2 k2 ht1 ht2
    exact getTransaction_store _ j2 tid a2 b2 c2 d2 e2 f2 g2 h2 i2 k2 ht2

/-- C8 witness: appending to the empty table is a pure insert, lookup of an
unstored identifier returns none, and two appends for identifier t9 make
latest return the second inserted record. -/
theorem decision_store_append_latest_witness :
    (∃ tail, storeTransaction [] [] [] = [] ++ tail) ∧
    getTransaction [] "zz" = none ∧
    txIdOf [("transaction_id", Value.strv "t9" none)] = some "t9" ∧
    getTransaction
        (storeTransaction
          (storeTransaction [] [("transaction_id", Value.strv "t9" none)]
            (mkPredDict 1 2 3 4 5 6 7 8 9 10))
          [("transaction_id", Value.strv "t9" none)]
          (mkPredDict 11 12 13 14 15 16 17 18 19 20)) "t9" =
      some (rowToResult
        (mkRow [("transaction_id", Value.strv "t9" none)]
          (nextId (storeTransaction [] [("transaction_id", Value.strv "t9" none)]
            (mkPredDict 1 2 3 4 5 6 7 8 9 10)))
          11 12 13 14 15 16 17 18 19 20)) :=
  ⟨decision_store_append_latest.1 [] [] [],
    decision_store_append_latest.2.1 [] "zz" (fun r hr => absurd hr (List.not_mem_nil r)),
    rfl,
    decision_store_append_latest.2.2 [] _ _ "t9"
      1 2 3 4 5 6 7 8 9 10 11 12 13 14 15 16 17 18 19 20 rfl rfl⟩

/-- C9 counterexample: a storage failure in establishing the database
connection raises out of the store operation, and in the streaming path the
publish of that message is suppressed, refuting the claim for that failure. -/
theorem storage_failure_claim_counterexample :
    storeTransactionWith DbFailure.connectFailed [] [] [] = Except.error "connection error" ∧
    (consumeStep DbFailure.connectFailed [] [] []).published = false :=
  ⟨rfl, rfl⟩

/-- C9 amended: a failure executing or committing the insert is absorbed
inside the store operation and does not suppress the publish; a failure
establishing the connection raises out of the store operation and suppresses
the publish of that message, but is caught by the handler of the loop, so the
ingestion loop itself never sees an uncaught error. -/
theorem storage_failure_handling :
    ∀ (db : DB) (j : Row) (p : PredDict),
      (storeTransactionWith DbFailure.executeFailed db j p = Except.ok db ∧
        (consumeStep DbFailure.executeFailed db j p).published = true ∧
        (consumeStep DbFailure.executeFailed db j p).loopRaised = false) ∧
      (storeTransactionWith DbFailure.connectFailed db j p = Except.error "connection error" ∧
        (consumeStep DbFailure.connectFailed db j p).published = false ∧
        (consumeStep DbFailure.connectFailed db j p).loopRaised = false) :=
  fun _ _ _ => ⟨⟨rfl, rfl, rfl⟩, ⟨rfl, rfl, rfl⟩⟩

/-- C10: storing a predictions dictionary and retrieving it by the embedded
identifier returns the (non-fraud, fraud) pair of every model unchanged, the
logistic, kneighbors and tree entries as lists and the svc and keras entries
as dicts, despite the (fraud, non-fraud) persisted column order. -/
theorem stored_roundtrip :
    ∀ (db : DB) (j : Row) (tid : String) (lnf lf knf kf snf sf tnf tf enf ef : ℚ),
      txIdOf j = some tid →
      getTransaction (storeTransaction db j (mkPredDict lnf lf knf kf snf sf tnf tf enf ef)) tid =
        some { transaction_json := j,
               logistic := ModelOut.plist lnf lf,
               kneighbors := ModelOut.plist knf kf,
               svc := ModelOut.pdict snf sf,
               tree := ModelOut.plist tnf tf,
               keras := ModelOut.pdict enf ef } := by
  intro db j tid lnf lf knf kf snf sf tnf tf enf ef htid
  rw [getTransaction_store db j tid lnf lf knf kf snf sf tnf tf enf ef htid]
  rfl

/-- C10 witness: the round trip evaluated on the empty table at identifier
t7 and ten concrete probabilities. -/
theorem stored_roundtrip_witness :
    txIdOf [("transaction_id", Value.strv "t7" none)] = some "t7" ∧
    getTransaction
        (storeTransaction [] [("transaction_id", Value.strv "t7" none)]
          (mkPredDict 1 2 3 4 5 6 7 8 9 10)) "t7" =
      some { transaction_json := [("transaction_id", Value.strv "t7" none)],
             logistic := ModelOut.plist 1 2,
             kneighbors := ModelOut.plist 3 4,
             svc := ModelOut.pdict 5 6,
             tree := ModelOut.plist 7 8,
             keras := ModelOut.pdict 9 10 } :=
  ⟨rfl, stored_roundtrip [] _ "t7" 1 2 3 4 5 6 7 8 9 10 rfl⟩

end FraudDetection
